import Mathlib

/-!
Shallow embedding of the ad ingestion and normalization pipeline of
`backend/app.py` (Competitor Ad War Room).  Python values that can occur
in a raw ad record are modelled by the inductive `Value`; a raw ad record
(a Python dict with string keys) is an association list.
-/

/-- A Python value as it can occur inside a raw ad record: `None`, a bool,
an int, a string, a list, or a dict with string keys. -/
inductive Value where
  | vnone : Value
  | vbool (b : Bool) : Value
  | vint (n : Int) : Value
  | vstr (s : String) : Value
  | vlist (xs : List Value) : Value
  | vdict (xs : List (String × Value)) : Value
deriving Repr

mutual

/-- Structural equality test on `Value` (Python `==` restricted to the
value shapes that occur in this pipeline). -/
def Value.beq : Value → Value → Bool
  | .vnone, .vnone => true
  | .vbool a, .vbool b => a == b
  | .vint a, .vint b => a == b
  | .vstr a, .vstr b => a == b
  | .vlist xs, .vlist ys => Value.beqList xs ys
  | .vdict xs, .vdict ys => Value.beqPairs xs ys
  | _, _ => false

def Value.beqList : List Value → List Value → Bool
  | [], [] => true
  | x :: xs, y :: ys => Value.beq x y && Value.beqList xs ys
  | _, _ => false

def Value.beqPairs : List (String × Value) → List (String × Value) → Bool
  | [], [] => true
  | (k1, v1) :: xs, (k2, v2) :: ys =>
      k1 == k2 && Value.beq v1 v2 && Value.beqPairs xs ys
  | _, _ => false

end

mutual

theorem Value.beq_refl : (v : Value) → Value.beq v v = true
  | .vnone => rfl
  | .vbool b => by simp [Value.beq]
  | .vint n => by simp [Value.beq]
  | .vstr s => by simp [Value.beq]
  | .vlist xs => by simp [Value.beq, Value.beqList_refl xs]
  | .vdict xs => by simp [Value.beq, Value.beqPairs_refl xs]

theorem Value.beqList_refl : (xs : List Value) → Value.beqList xs xs = true
  | [] => rfl
  | x :: xs => by
      simp [Value.beqList, Value.beq_refl x, Value.beqList_refl xs]

theorem Value.beqPairs_refl :
    (xs : List (String × Value)) → Value.beqPairs xs xs = true
  | [] => rfl
  | (k, v) :: xs => by
      simp [Value.beqPairs, Value.beq_refl v, Value.beqPairs_refl xs]

end

mutual

theorem Value.eq_of_beq : (v w : Value) → Value.beq v w = true → v = w
  | .vnone, .vnone, _ => rfl
  | .vbool a, .vbool b, h => by simp [Value.beq] at h; simp [h]
  | .vint a, .vint b, h => by simp [Value.beq] at h; simp [h]
  | .vstr a, .vstr b, h => by simp [Value.beq] at h; simp [h]
  | .vlist xs, .vlist ys, h => by
      simp only [Value.beq] at h
      simp [Value.eqList_of_beq xs ys h]
  | .vdict xs, .vdict ys, h => by
      simp only [Value.beq] at h
      simp [Value.eqPairs_of_beq xs ys h]
  | .vnone, .vbool _, h => by simp [Value.beq] at h
  | .vnone, .vint _, h => by simp [Value.beq] at h
  | .vnone, .vstr _, h => by simp [Value.beq] at h
  | .vnone, .vlist _, h => by simp [Value.beq] at h
  | .vnone, .vdict _, h => by simp [Value.beq] at h
  | .vbool _, .vnone, h => by simp [Value.beq] at h
  | .vbool _, .vint _, h => by simp [Value.beq] at h
  | .vbool _, .vstr _, h => by simp [Value.beq] at h
  | .vbool _, .vlist _, h => by simp [Value.beq] at h
  | .vbool _, .vdict _, h => by simp [Value.beq] at h
  | .vint _, .vnone, h => by simp [Value.beq] at h
  | .vint _, .vbool _, h => by simp [Value.beq] at h
  | .vint _, .vstr _, h => by simp [Value.beq] at h
  | .vint _, .vlist _, h => by simp [Value.beq] at h
  | .vint _, .vdict _, h => by simp [Value.beq] at h
  | .vstr _, .vnone, h => by simp [Value.beq] at h
  | .vstr _, .vbool _, h => by simp [Value.beq] at h
  | .vstr _, .vint _, h => by simp [Value.beq] at h
  | .vstr _, .vlist _, h => by simp [Value.beq] at h
  | .vstr _, .vdict _, h => by simp [Value.beq] at h
  | .vlist _, .vnone, h => by simp [Value.beq] at h
  | .vlist _, .vbool _, h => by simp [Value.beq] at h
  | .vlist _, .vint _, h => by simp [Value.beq] at h
  | .vlist _, .vstr _, h => by simp [Value.beq] at h
  | .vlist _, .vdict _, h => by simp [Value.beq] at h
  | .vdict _, .vnone, h => by simp [Value.beq] at h
  | .vdict _, .vbool _, h => by simp [Value.beq] at h
  | .vdict _, .vint _, h => by simp [Value.beq] at h
  | .vdict _, .vstr _, h => by simp [Value.beq] at h
  | .vdict _, .vlist _, h => by simp [Value.beq] at h

theorem Value.eqList_of_beq :
    (xs ys : List Value) → Value.beqList xs ys = true → xs = ys
  | [], [], _ => rfl
  | x :: xs, y :: ys, h => by
      simp only [Value.beqList, Bool.and_eq_true] at h
      simp [Value.eq_of_beq x y h.1, Value.eqList_of_beq xs ys h.2]
  | [], _ :: _, h => by simp [Value.beqList] at h
  | _ :: _, [], h => by simp [Value.beqList] at h

theorem Value.eqPairs_of_beq :
    (xs ys : List (String × Value)) → Value.beqPairs xs ys = true → xs = ys
  | [], [], _ => rfl
  | (k1, v1) :: xs, (k2, v2) :: ys, h => by
      simp only [Value.beqPairs, Bool.and_eq_true] at h
      obtain ⟨⟨hk, hv⟩, hs⟩ := h
      simp only [beq_iff_eq] at hk
      simp [hk, Value.eq_of_beq v1 v2 hv, Value.eqPairs_of_beq xs ys hs]
  | [], _ :: _, h => by simp [Value.beqPairs] at h
  | _ :: _, [], h => by simp [Value.beqPairs] at h

end

instance : BEq Value := ⟨Value.beq⟩

instance : LawfulBEq Value where
  eq_of_beq h := Value.eq_of_beq _ _ h
  rfl := Value.beq_refl _

instance : DecidableEq Value := fun v w =>
  decidable_of_iff (Value.beq v w = true)
    ⟨Value.eq_of_beq v w, fun h => h ▸ Value.beq_refl v⟩

/-- Python truthiness (`bool(v)`). -/
def Value.truthy : Value → Bool
  | .vnone => false
  | .vbool b => b
  | .vint n => n != 0
  | .vstr s => s != ""
  | .vlist xs => !xs.isEmpty
  | .vdict xs => !xs.isEmpty

/-- A raw ad record: a Python dict with string keys (`RawAdRecord`). -/
abbrev RawAd := List (String × Value)

/-- Python `ad.get(k, d)`. -/
def rawGetD (ad : RawAd) (k : String) (d : Value) : Value :=
  (List.lookup k ad).getD d

/-- Python `ad.get(k)` (default `None`). -/
def rawGet (ad : RawAd) (k : String) : Value :=
  rawGetD ad k .vnone

/-- Python `a or b`. -/
def pyOr (a b : Value) : Value :=
  if a.truthy then a else b

/-- Python `ad[k] = v` on a dict: overwrite in place or append. -/
def setKey (ad : RawAd) (k : String) (v : Value) : RawAd :=
  if (List.lookup k ad).isSome then
    ad.map (fun p => if p.1 == k then (k, v) else p)
  else
    ad ++ [(k, v)]

/-- A timezone-naive `datetime` (what `_normalize_ad` stores after
`.replace(tzinfo=None)`). -/
structure NaiveDT where
  year : Nat
  month : Nat
  day : Nat
  hour : Nat
  minute : Nat
  second : Nat
deriving DecidableEq, Repr

/-- Gregorian leap-year rule (as in Python's `datetime`). -/
def isLeap (y : Nat) : Bool :=
  (y % 4 == 0 && y % 100 != 0) || y % 400 == 0

/-- Days in a month of a given year. -/
def daysInMonth (y m : Nat) : Nat :=
  match m with
  | 1 => 31
  | 2 => if isLeap y then 29 else 28
  | 3 => 31
  | 4 => 30
  | 5 => 31
  | 6 => 30
  | 7 => 31
  | 8 => 31
  | 9 => 30
  | 10 => 31
  | 11 => 30
  | 12 => 31
  | _ => 0

/-- Days in the months strictly before month `m` of year `y`. -/
def daysBeforeMonth (y m : Nat) : Nat :=
  (match m with
   | 1 => 0
   | 2 => 31
   | 3 => 59
   | 4 => 90
   | 5 => 120
   | 6 => 151
   | 7 => 181
   | 8 => 212
   | 9 => 243
   | 10 => 273
   | 11 => 304
   | 12 => 334
   | _ => 0) + (if 3 ≤ m && isLeap y then 1 else 0)

/-- Days strictly before January 1 of year `y` (proleptic Gregorian,
day 1 = 0001-01-01), matching `datetime.toordinal`. -/
def daysBeforeYear (y : Nat) : Nat :=
  let n := y - 1
  n * 365 + n / 4 - n / 100 + n / 400

/-- Python `datetime.toordinal()`. -/
def NaiveDT.toOrdinal (d : NaiveDT) : Nat :=
  daysBeforeYear d.year + daysBeforeMonth d.year d.month + d.day

/-- The datetime as a second count (ordinal day times 86400 plus the
time of day); an order-preserving encoding used for subtraction. -/
def NaiveDT.toSecs (d : NaiveDT) : Int :=
  ((d.toOrdinal * 86400 + d.hour * 3600 + d.minute * 60 + d.second : Nat) : Int)

/-- Python `(e - s).days` on two datetimes: Python's `timedelta.days` floors
toward negative infinity, which is `Int.fdiv`. -/
def deltaDays (e s : NaiveDT) : Int :=
  Int.fdiv (e.toSecs - s.toSecs) 86400

/-- Python `int(datetime.timestamp())` for a naive UTC datetime
(`date(1970, 1, 1).toordinal() = 719163`). -/
def pyTimestamp (d : NaiveDT) : Int :=
  d.toSecs - 719163 * 86400

/-- Numeric value of a digit character. -/
def dig (c : Char) : Nat := c.toNat - 48

/-- Validate the fields and build the datetime (as `datetime(...)` does;
out-of-range fields raise, modelled as `none`). -/
def mkNaive (y mo da h mi s : Nat) : Option NaiveDT :=
  if 1 ≤ y && 1 ≤ mo && mo ≤ 12 && 1 ≤ da && da ≤ daysInMonth y mo
      && h ≤ 23 && mi ≤ 59 && s ≤ 59 then
    some ⟨y, mo, da, h, mi, s⟩
  else
    none

/-- A well-formed trailing UTC-offset suffix: empty, or a sign followed by
`HH:MM` with a valid offset; the offset is validated and then discarded,
since the caller strips it with `.replace(tzinfo=None)`. -/
def offsetOk : List Char → Bool
  | [] => true
  | sgn :: o1 :: o2 :: ':' :: o3 :: o4 :: [] =>
      (sgn == '+' || sgn == '-') && o1.isDigit && o2.isDigit
        && o3.isDigit && o4.isDigit
        && dig o1 * 10 + dig o2 ≤ 23 && dig o3 * 10 + dig o4 ≤ 59
  | _ => false

/-- Python `datetime.fromisoformat` on the formats this pipeline feeds it:
`YYYY-MM-DD`, optionally followed by a `T` or space separator and
`HH:MM:SS`, optionally followed by a `+HH:MM`/`-HH:MM` offset.
Anything else is unparseable (`none`). -/
def fromisoformat (s : String) : Option NaiveDT :=
  match s.data with
  | c1 :: c2 :: c3 :: c4 :: '-' :: c5 :: c6 :: '-' :: c7 :: c8 :: rest =>
    if c1.isDigit && c2.isDigit && c3.isDigit && c4.isDigit
        && c5.isDigit && c6.isDigit && c7.isDigit && c8.isDigit then
      let y := ((dig c1 * 10 + dig c2) * 10 + dig c3) * 10 + dig c4
      let mo := dig c5 * 10 + dig c6
      let da := dig c7 * 10 + dig c8
      match rest with
      | [] => mkNaive y mo da 0 0 0
      | sep :: h1 :: h2 :: ':' :: m1 :: m2 :: ':' :: s1 :: s2 :: off =>
        if (sep == 'T' || sep == ' ') && h1.isDigit && h2.isDigit
            && m1.isDigit && m2.isDigit && s1.isDigit && s2.isDigit
            && offsetOk off then
          mkNaive y mo da (dig h1 * 10 + dig h2) (dig m1 * 10 + dig m2)
            (dig s1 * 10 + dig s2)
        else none
      | _ => none
    else none
  | _ => none

/-- Python `str.replace`, scanning left to right without overlap, on
character lists (the pattern is `p :: ps`, so it is non-empty).  The
fuel argument starts at the list length, so the `0`-with-nonempty-list
branch is never taken; it only makes the recursion structural. -/
def pyReplaceGo (p : Char) (ps rep : List Char) : Nat → List Char → List Char
  | _, [] => []
  | 0, cs => cs
  | f + 1, c :: cs =>
    if (p :: ps).isPrefixOf (c :: cs) then
      rep ++ pyReplaceGo p ps rep f (cs.drop ps.length)
    else
      c :: pyReplaceGo p ps rep f cs

/-- Python `s.replace(pat, rep)` (an empty pattern does not occur in
this pipeline and is treated as a no-op). -/
def pyReplace (s pat rep : String) : String :=
  match pat.data with
  | [] => s
  | p :: ps => String.mk (pyReplaceGo p ps rep.data s.data.length s.data)

/-- The helper `parse_dt` (inner to `_normalize_ad`): falsy input gives
`None`; otherwise rewrite the `+0000` and `Z` offset spellings to
`+00:00`, parse, and strip the timezone; any failure (including a
non-string input, whose `.replace` raises) is swallowed to `None`. -/
def parse_dt (v : Value) : Option NaiveDT :=
  if !v.truthy then none
  else
    match v with
    | .vstr s => fromisoformat (pyReplace (pyReplace s "+0000" "+00:00") "Z" "+00:00")
    | _ => none

/-- Digits-only numeral value. -/
def natDigits (ds : List Char) : Option Nat :=
  if !ds.isEmpty && ds.all Char.isDigit then
    some (ds.foldl (fun acc c => acc * 10 + dig c) 0)
  else
    none

/-- Python `s.strip()`: drop leading and trailing whitespace. -/
def pyStrip (s : String) : List Char :=
  ((s.data.dropWhile Char.isWhitespace).reverse.dropWhile Char.isWhitespace).reverse

/-- Python `int(s)` on a string: optional surrounding whitespace, optional
sign, digits. -/
def strToInt (s : String) : Option Int :=
  match pyStrip s with
  | '+' :: ds => (natDigits ds).map Int.ofNat
  | '-' :: ds => (natDigits ds).map (fun n => -(Int.ofNat n))
  | ds => (natDigits ds).map Int.ofNat

/-- Python `int(v)`: ints pass through, bools coerce to 0/1, strings are
parsed; everything else raises (`none`). -/
def intCoerce : Value → Option Int
  | .vint n => some n
  | .vbool b => some (if b then 1 else 0)
  | .vstr s => strToInt s
  | _ => none

/-- Python `isinstance(v, dict)`. -/
def Value.isDictV : Value → Bool
  | .vdict _ => true
  | _ => false

/-- Python `d.get(k, default)` on a dict value. -/
def Value.dget (v : Value) (k : String) (d : Value) : Value :=
  match v with
  | .vdict xs => (List.lookup k xs).getD d
  | _ => d

/-- The helper `parse_spend` (inner to `_normalize_ad`): `(None, None)` for a
falsy or non-dict input; otherwise coerce both bounds (absent bounds
default to `0`), and if either coercion raises return `(None, None)`. -/
def parse_spend (spend : Value) : Option Int × Option Int :=
  if !spend.truthy || !spend.isDictV then (none, none)
  else
    match intCoerce (spend.dget "lower_bound" (.vint 0)),
        intCoerce (spend.dget "upper_bound" (.vint 0)) with
    | some a, some b => (some a, some b)
    | _, _ => (none, none)

/-- Python `v[0]` on an arbitrary value: strings and non-empty lists
index, dicts raise `KeyError` (their keys here are strings, never `0`),
everything else raises `TypeError`. -/
def index0 : Value → Except String Value
  | .vstr s =>
    match s.data with
    | c :: _ => .ok (.vstr (String.mk [c]))
    | [] => .error "IndexError"
  | .vlist xs =>
    match xs with
    | x :: _ => .ok x
    | [] => .error "IndexError"
  | .vdict _ => .error "KeyError"
  | _ => .error "TypeError"

/-- Python `v[0] if v else ""` (the creative-field reduction). -/
def firstOrEmpty (v : Value) : Except String Value :=
  if v.truthy then index0 v else .ok (.vstr "")

/-- Python `v > m` against an int: ints compare, bools compare as 0/1,
anything else raises `TypeError`. -/
def pyGtInt : Value → Int → Except String Bool
  | .vint n, m => .ok (decide (m < n))
  | .vbool b, m => .ok (decide (m < (if b then 1 else 0)))
  | _, _ => .error "TypeError"

/-- JSON string escaping (quote and backslash; the strings this
pipeline serializes contain no control characters). -/
def jsonEscapeChar (c : Char) : String :=
  if c == Char.ofNat 34 then String.mk [Char.ofNat 92, Char.ofNat 34]
  else if c == Char.ofNat 92 then String.mk [Char.ofNat 92, Char.ofNat 92]
  else String.mk [c]

def jsonEscape (s : String) : String :=
  String.join (s.data.map jsonEscapeChar)

def jsonQuote (s : String) : String :=
  String.mk [Char.ofNat 34] ++ jsonEscape s ++ String.mk [Char.ofNat 34]

mutual

/-- Python `json.dumps` with its default separators, on the value
shapes of this pipeline. -/
def jsonDumps : Value → String
  | .vnone => "null"
  | .vbool b => if b then "true" else "false"
  | .vint n => toString n
  | .vstr s => jsonQuote s
  | .vlist xs => "[" ++ jsonDumpsList xs ++ "]"
  | .vdict xs => "\x7b" ++ jsonDumpsPairs xs ++ "\x7d"

def jsonDumpsList : List Value → String
  | [] => ""
  | [x] => jsonDumps x
  | x :: y :: xs => jsonDumps x ++ ", " ++ jsonDumpsList (y :: xs)

def jsonDumpsPairs : List (String × Value) → String
  | [] => ""
  | [(k, v)] => jsonQuote k ++ ": " ++ jsonDumps v
  | (k, v) :: p :: xs => jsonQuote k ++ ": " ++ jsonDumps v ++ ", " ++ jsonDumpsPairs (p :: xs)

end

/-- The synthesized fallback id
`f"ad_&#123;int(datetime.utcnow().timestamp())&#125;_&#123;competitor_name&#125;"`. -/
def synthId (now : NaiveDT) (competitor_name : String) : String :=
  "ad_" ++ toString (pyTimestamp now) ++ "_" ++ competitor_name

/-- The value `bodies = ad.get(k) or []` for the three creative list fields. -/
def creativeVal (ad : RawAd) (k : String) : Value :=
  pyOr (rawGet ad k) (.vlist [])

/-- The value `parse_dt(ad.get("ad_delivery_start_time") or ad.get("ad_creation_time"))`. -/
def startTimeOf (ad : RawAd) : Option NaiveDT :=
  parse_dt (pyOr (rawGet ad "ad_delivery_start_time") (rawGet ad "ad_creation_time"))

/-- The value `parse_dt(ad.get("ad_delivery_stop_time"))`. -/
def stopTimeOf (ad : RawAd) : Option NaiveDT :=
  parse_dt (rawGet ad "ad_delivery_stop_time")

/-- The value `ad.get("_is_active", stop_time is None)`. -/
def isActiveVal (ad : RawAd) : Value :=
  rawGetD ad "_is_active" (.vbool (stopTimeOf ad).isNone)

/-- The `run_days` local after the derivation step: the `_run_days`
override, unless it is `None` and a start time exists, in which case
the whole days between start and (stop or now). -/
def runDaysVar (ad : RawAd) (now : NaiveDT) : Value :=
  match rawGet ad "_run_days", startTimeOf ad with
  | .vnone, some st => .vint (deltaDays ((stopTimeOf ad).getD now) st)
  | rd, _ => rd

/-- The stored `run_days or 0`. -/
def runDaysStored (ad : RawAd) (now : NaiveDT) : Value :=
  let rd := runDaysVar ad now
  if rd.truthy then rd else .vint 0

/-- The test `media_type == "unknown"` (Python `==` across types is `False`). -/
def isUnknownStr : Value → Bool
  | .vstr s => s == "unknown"
  | _ => false

/-- The value `ad.get("media_type", "IMAGE")` normalized to a non-empty category. -/
def mediaTypeVal (ad : RawAd) : Value :=
  let mt := rawGetD ad "media_type" (.vstr "IMAGE")
  if !mt.truthy || isUnknownStr mt then .vstr "IMAGE" else mt

/-- The expression `run_days > 30 if run_days else False`. -/
def isTopExpr (ad : RawAd) (now : NaiveDT) : Except String Bool :=
  let rd := runDaysVar ad now
  if rd.truthy then pyGtInt rd 30 else .ok false

/-- The DB-ready dict `_normalize_ad` returns (`CanonicalAd`). -/
structure CanonicalAd where
  id : Value
  page_name : Value
  page_id : Value
  brand_key : String
  competitor_name : String
  ad_body : Value
  ad_title : Value
  ad_description : Value
  media_type : Value
  publisher_platforms : String
  languages : String
  ad_creation_time : Option NaiveDT
  ad_delivery_start_time : Option NaiveDT
  ad_delivery_stop_time : Option NaiveDT
  spend_lower : Option Int
  spend_upper : Option Int
  impressions_lower : Option Int
  impressions_upper : Option Int
  ad_snapshot_url : Value
  theme : Value
  is_active : Value
  run_days : Value
  is_top_performer : Bool
  is_sample : Value
deriving DecidableEq, Repr

/-- The function `_normalize_ad(ad, brand_key, competitor_name)`: convert a raw ad to
the DB-ready record.  `now` is the `datetime.utcnow()` the call
observes.  The only places the Python body can raise are the `[0]`
indexings of the three creative fields and the `run_days > 30`
comparison (in that evaluation order); everything else has a defined
fallback.  An `.error` is an uncaught Python exception. -/
def _normalize_ad (ad : RawAd) (brand_key competitor_name : String)
    (now : NaiveDT) : Except String CanonicalAd :=
  let sp := parse_spend (rawGet ad "spend")
  let im := parse_spend (rawGet ad "impressions")
  match firstOrEmpty (creativeVal ad "ad_creative_bodies"),
      firstOrEmpty (creativeVal ad "ad_creative_link_titles"),
      firstOrEmpty (creativeVal ad "ad_creative_link_descriptions"),
      isTopExpr ad now with
  | .ok ad_body, .ok ad_title, .ok ad_description, .ok is_top =>
    .ok {
      id := rawGetD ad "id" (.vstr (synthId now competitor_name)),
      page_name := rawGetD ad "page_name" (.vstr competitor_name),
      page_id := rawGetD ad "page_id" (.vstr ""),
      brand_key := brand_key,
      competitor_name := competitor_name,
      ad_body := ad_body,
      ad_title := ad_title,
      ad_description := ad_description,
      media_type := mediaTypeVal ad,
      publisher_platforms := jsonDumps (rawGetD ad "publisher_platforms" (.vlist [.vstr "facebook"])),
      languages := jsonDumps (rawGetD ad "languages" (.vlist [.vstr "en"])),
      ad_creation_time := parse_dt (rawGet ad "ad_creation_time"),
      ad_delivery_start_time := startTimeOf ad,
      ad_delivery_stop_time := stopTimeOf ad,
      spend_lower := sp.1,
      spend_upper := sp.2,
      impressions_lower := im.1,
      impressions_upper := im.2,
      ad_snapshot_url := rawGet ad "ad_snapshot_url",
      theme := pyOr (rawGet ad "theme") (rawGet ad "_theme"),
      is_active := isActiveVal ad,
      run_days := runDaysStored ad now,
      is_top_performer := is_top,
      is_sample := rawGetD ad "_is_sample" (.vbool false) }
  | .error e, _, _, _ => .error e
  | _, .error e, _, _ => .error e
  | _, _, .error e, _ => .error e
  | _, _, _, .error e => .error e

instance {ε α : Type} [DecidableEq ε] [DecidableEq α] : DecidableEq (Except ε α) := fun a b =>
  match a, b with
  | .ok x, .ok y => decidable_of_iff (x = y) (by simp)
  | .error x, .error y => decidable_of_iff (x = y) (by simp)
  | .ok _, .error _ => isFalse (by simp)
  | .error _, .ok _ => isFalse (by simp)

/-- The persistent ad store, as the sequence of stored rows. -/
abbrev Store := List CanonicalAd

/-- Does a stored record carry this `id`? -/
def idMatches (i : Value) (r : CanonicalAd) : Bool :=
  r.id == i

/-- Modelled from the spec: `upsert_ad` lives in `database.py`, which is
not under `src/`.  The spec defines it as "insert-or-replace keyed by
`id`" / "insert-or-replace persistence operation keyed by external
identifier, guaranteeing no duplicate rows per id": replace the row
with the same `id` if one exists, otherwise append the new row. -/
def upsert_ad : Store → CanonicalAd → Store
  | [], c => [c]
  | r :: rest, c => if r.id == c.id then c :: rest else r :: upsert_ad rest c

/-- The lookups `ad_raw["_brand_key"]` and `ad_raw["_competitor"]` in
`_seed_sample_data`: bare subscripts, so a missing key raises.  The
sample generator (`sample_data.py`, not under `src/`) supplies both as
strings per the spec, so non-string values are outside the modelled
domain and also mapped to an error. -/
def metaOf (ad : RawAd) : Except String (String × String) :=
  match List.lookup "_brand_key" ad, List.lookup "_competitor" ad with
  | some (.vstr bk), some (.vstr comp) => .ok (bk, comp)
  | some _, some _ => .error "TypeError"
  | _, _ => .error "KeyError"

/-- The function `_seed_sample_data`: normalize and upsert every sample ad; only the
upsert is inside the `try`, so a persistence failure is swallowed
(logged) and the loop continues, while a normalize failure propagates.
`upsertF` is the persistence operation (the spec's `upsert`, which "may
raise on constraint violation"). -/
def seedStep (upsertF : Store → CanonicalAd → Except String Store)
    (now : NaiveDT) (db : Store) (ad_raw : RawAd) : Except String Store := do
  let meta ← metaOf ad_raw
  let ad_data ← _normalize_ad ad_raw meta.1 meta.2 now
  match upsertF db ad_data with
  | .ok db2 => pure db2
  | .error _ => pure db

def seedSampleData (upsertF : Store → CanonicalAd → Except String Store)
    (allAds : List RawAd) (now : NaiveDT) (db : Store) : Except String Store :=
  allAds.foldlM (seedStep upsertF now) db

/-- A configured competitor (an entry of a brand's `competitors` list
in the brand configuration). -/
structure Comp where
  name : String
  page_search_term : String

/-- The inner record loop of the live-fetch path of `fetch_ads` (lines
346-349): normalize, upsert, `count += 1`, stopping at the first raise.
Returns the store and count as mutated so far plus the error, if any:
a raise does not undo earlier upserts or increments. -/
def processRecords (upsertF : Store → CanonicalAd → Except String Store)
    (bk comp : String) (now : NaiveDT) :
    List RawAd → Store → Nat → Store × Nat × Option String
  | [], db, count => (db, count, none)
  | ad :: rest, db, count =>
    match _normalize_ad ad bk comp now with
    | .error e => (db, count, some e)
    | .ok ad_data =>
      match upsertF db ad_data with
      | .error e => (db, count, some e)
      | .ok db2 => processRecords upsertF bk comp now rest db2 (count + 1)

/-- The per-competitor record list of the live-fetch path: the fetched
records, or, when the fetch came back empty, fresh sample records each
mutated with `ad["_is_sample"] = True`.  `gen` is the sample generator
`generate_sample_ads` (in `sample_data.py`, not under `src/`),
abstracted as a function of competitor name, brand key and count. -/
def compRawAds (gen : String → String → Nat → List RawAd)
    (bk : String) (comp : Comp) (fetched : List RawAd) : List RawAd :=
  if fetched.isEmpty then
    (gen comp.name bk 10).map (fun ad => setKey ad "_is_sample" (.vbool true))
  else
    fetched

/-- One competitor of the live-fetch path (the `try`/`except` body of
lines 333-353): fetch, substitute samples if empty, process the
records; any raise (fetch, normalize or upsert) is caught here and
recorded as `"name: message"`, keeping the store and count as already
mutated.  `fetchF` abstracts `client.fetch_all_ads_for_competitor`
(`meta_api.py`, not under `src/`). -/
def processComp (upsertF : Store → CanonicalAd → Except String Store)
    (fetchF : String → Except String (List RawAd))
    (gen : String → String → Nat → List RawAd)
    (bk : String) (comp : Comp) (now : NaiveDT)
    (st : Store × Nat × List String) : Store × Nat × List String :=
  match fetchF comp.page_search_term with
  | .error e => (st.1, st.2.1, st.2.2 ++ [comp.name ++ ": " ++ e])
  | .ok fetched =>
    match processRecords upsertF bk comp.name now (compRawAds gen bk comp fetched) st.1 st.2.1 with
    | (db, count, none) => (db, count, st.2.2)
    | (db, count, some e) => (db, count, st.2.2 ++ [comp.name ++ ": " ++ e])

/-- The live-fetch path of `fetch_ads` (token present and valid):
iterate brands and their competitors in order, starting from
`count = 0` and an empty error list. -/
def fetchAdsLive (upsertF : Store → CanonicalAd → Except String Store)
    (fetchF : String → Except String (List RawAd))
    (gen : String → String → Nat → List RawAd)
    (brands : List (String × List Comp)) (now : NaiveDT) (db : Store) :
    Store × Nat × List String :=
  brands.foldl (fun st bkc =>
    bkc.2.foldl (fun st comp => processComp upsertF fetchF gen bkc.1 comp now st) st)
    (db, 0, [])

/-- The response of the live-fetch path: `"success"` or `"partial"`,
the loaded count, and the error list truncated to 5 entries. -/
def fetchAdsLiveResponse (upsertF : Store → CanonicalAd → Except String Store)
    (fetchF : String → Except String (List RawAd))
    (gen : String → String → Nat → List RawAd)
    (brands : List (String × List Comp)) (now : NaiveDT) (db : Store) :
    String × Nat × List String :=
  let r := fetchAdsLive upsertF fetchF gen brands now db
  ((if r.2.2.isEmpty then "success" else "partial"), r.2.1, r.2.2.take 5)

/-- The no-credential path of `fetch_ads` (lines 309-321): reseed fresh
sample data.  There is no `try`/`except` in this loop, so a normalize
or upsert raise propagates out of the whole batch (an `.error`
result). -/
def fetchAdsNoToken (upsertF : Store → CanonicalAd → Except String Store)
    (gen : String → String → Nat → List RawAd)
    (brands : List (String × List Comp)) (now : NaiveDT) (db : Store) :
    Except String (Store × Nat) :=
  brands.foldlM (fun st bkc =>
    bkc.2.foldlM (fun st comp =>
      (gen comp.name bkc.1 15).foldlM (fun st ad => do
        let ad_data ← _normalize_ad ad bkc.1 comp.name now
        let db2 ← upsertF st.1 ad_data
        pure (db2, st.2 + 1)) st) st) (db, 0)

/-- The record a successful `_normalize_ad` returns, with the four
fallible subexpressions (the three creative `[0]` indexings and the
top-performer comparison) passed in. -/
def okRecord (ad : RawAd) (brand_key competitor_name : String) (now : NaiveDT)
    (ad_body ad_title ad_description : Value) (is_top : Bool) : CanonicalAd :=
  { id := rawGetD ad "id" (.vstr (synthId now competitor_name)),
    page_name := rawGetD ad "page_name" (.vstr competitor_name),
    page_id := rawGetD ad "page_id" (.vstr ""),
    brand_key := brand_key,
    competitor_name := competitor_name,
    ad_body := ad_body,
    ad_title := ad_title,
    ad_description := ad_description,
    media_type := mediaTypeVal ad,
    publisher_platforms := jsonDumps (rawGetD ad "publisher_platforms" (.vlist [.vstr "facebook"])),
    languages := jsonDumps (rawGetD ad "languages" (.vlist [.vstr "en"])),
    ad_creation_time := parse_dt (rawGet ad "ad_creation_time"),
    ad_delivery_start_time := startTimeOf ad,
    ad_delivery_stop_time := stopTimeOf ad,
    spend_lower := (parse_spend (rawGet ad "spend")).1,
    spend_upper := (parse_spend (rawGet ad "spend")).2,
    impressions_lower := (parse_spend (rawGet ad "impressions")).1,
    impressions_upper := (parse_spend (rawGet ad "impressions")).2,
    ad_snapshot_url := rawGet ad "ad_snapshot_url",
    theme := pyOr (rawGet ad "theme") (rawGet ad "_theme"),
    is_active := isActiveVal ad,
    run_days := runDaysStored ad now,
    is_top_performer := is_top,
    is_sample := rawGetD ad "_is_sample" (.vbool false) }

theorem normalize_ok_elim {ad : RawAd} {bk comp : String} {now : NaiveDT}
    {c : CanonicalAd} (h : _normalize_ad ad bk comp now = .ok c) :
    ∃ ad_body ad_title ad_description is_top,
      firstOrEmpty (creativeVal ad "ad_creative_bodies") = .ok ad_body ∧
      firstOrEmpty (creativeVal ad "ad_creative_link_titles") = .ok ad_title ∧
      firstOrEmpty (creativeVal ad "ad_creative_link_descriptions") = .ok ad_description ∧
      isTopExpr ad now = .ok is_top ∧
      c = okRecord ad bk comp now ad_body ad_title ad_description is_top := by
  unfold _normalize_ad at h
  cases hb : firstOrEmpty (creativeVal ad "ad_creative_bodies") <;> rw [hb] at h
  case error e => exact absurd h (by simp)
  case ok ad_body =>
  cases ht : firstOrEmpty (creativeVal ad "ad_creative_link_titles") <;> rw [ht] at h
  case error e => exact absurd h (by simp)
  case ok ad_title =>
  cases hd : firstOrEmpty (creativeVal ad "ad_creative_link_descriptions") <;> rw [hd] at h
  case error e => exact absurd h (by simp)
  case ok ad_description =>
  cases htp : isTopExpr ad now <;> rw [htp] at h
  case error e => exact absurd h (by simp)
  case ok is_top =>
  refine ⟨ad_body, ad_title, ad_description, is_top, rfl, rfl, rfl, rfl, ?_⟩
  simp only [Except.ok.injEq] at h
  exact h.symm

/-! ## Helpers for stating and witnessing the claims -/

/-- The stored `run_days` as the integer Python compares it to `30`
with (bools count as 0/1); `none` for values `>` would raise on. -/
def valueAsInt : Value → Option Int
  | .vint n => some n
  | .vbool b => some (if b then 1 else 0)
  | _ => none

/-- Extract the record of a successful normalization (junk fallback for
the error case, used only on inputs known to normalize). -/
def adOf (r : Except String CanonicalAd) : CanonicalAd :=
  match r with
  | .ok c => c
  | .error _ => okRecord [] "" "" ⟨1, 1, 1, 0, 0, 0⟩ .vnone .vnone .vnone false

/-- A fixed "current time" used by concrete witnesses. -/
def nowW : NaiveDT := ⟨2025, 6, 1, 0, 0, 0⟩

/-! ## C5: the spend/impression range parser contract -/

/-- C5: `parse_spend` returns an atomic pair — `(None, None)` when the
input is absent (`None`), not a dict, or either bound fails integer
coercion, and never one `None` beside one integer; with both bounds
present and coercible (including the numeric strings `"100"`/`"200"`)
it returns the integer pair `(100, 200)`. -/
theorem claim_range_parser_contract :
    (∀ v : Value, parse_spend v = (none, none) ∨
      ∃ a b : Int, parse_spend v = (some a, some b)) ∧
    parse_spend .vnone = (none, none) ∧
    (∀ v : Value, v.isDictV = false → parse_spend v = (none, none)) ∧
    (∀ xs : List (String × Value),
      intCoerce (Value.dget (.vdict xs) "lower_bound" (.vint 0)) = none ∨
        intCoerce (Value.dget (.vdict xs) "upper_bound" (.vint 0)) = none →
      parse_spend (.vdict xs) = (none, none)) ∧
    parse_spend (.vdict [("lower_bound", .vstr "100"), ("upper_bound", .vstr "200")])
      = (some 100, some 200) := by
  refine ⟨?_, by decide, ?_, ?_, by decide⟩
  · intro v
    unfold parse_spend
    by_cases hv : (!v.truthy || !v.isDictV) = true
    · rw [if_pos hv]
      exact Or.inl rfl
    · rw [if_neg hv]
      cases h1 : intCoerce (v.dget "lower_bound" (.vint 0)) <;>
        cases h2 : intCoerce (v.dget "upper_bound" (.vint 0)) <;>
        simp
  · intro v hv
    unfold parse_spend
    have : (!v.truthy || !v.isDictV) = true := by simp [hv]
    rw [if_pos this]
  · intro xs h
    unfold parse_spend
    by_cases hv : (!(Value.vdict xs).truthy || !(Value.vdict xs).isDictV) = true
    · rw [if_pos hv]
    · rw [if_neg hv]
      rcases h with h | h <;>
        cases h1 : intCoerce ((Value.vdict xs).dget "lower_bound" (.vint 0)) <;>
        cases h2 : intCoerce ((Value.vdict xs).dget "upper_bound" (.vint 0)) <;>
        simp_all

/-- Witness for C5: a non-dict input (the clause with a hypothesis)
resolves to `(None, None)`. -/
theorem claim_range_parser_contract_witness :
    parse_spend (.vstr "x") = (none, none) :=
  claim_range_parser_contract.2.2.1 (.vstr "x") rfl

/-! ## C7: the two offset spellings normalize identically -/

/-- C7: the timestamp normalizer maps `"2024-01-15T10:00:00+0000"` and
`"2024-01-15T10:00:00Z"` to the same timezone-naive timestamp. -/
theorem claim_timestamp_offset_spellings :
    parse_dt (.vstr "2024-01-15T10:00:00+0000") = some ⟨2024, 1, 15, 10, 0, 0⟩ ∧
    parse_dt (.vstr "2024-01-15T10:00:00Z") = some ⟨2024, 1, 15, 10, 0, 0⟩ := by
  decide

/-! ## C6: top-performer flag is exactly run_days > 30 -/

/-- C6: for every successfully normalized ad, the stored
`is_top_performer` equals `run_days > 30` exactly, reading the stored
`run_days` as the integer Python compares (also when `run_days` was
absent and defaulted to `0`, or non-positive). -/
theorem claim_top_performer_equiv :
    ∀ (ad : RawAd) (bk comp : String) (now : NaiveDT) (c : CanonicalAd),
    _normalize_ad ad bk comp now = .ok c →
    (valueAsInt c.run_days).map (fun n => decide (30 < n)) = some c.is_top_performer := by
  intro ad bk comp now c h
  obtain ⟨b, t, d, tp, hb, ht, hd, htp, hc⟩ := normalize_ok_elim h
  subst hc
  simp only [okRecord]
  simp only [isTopExpr] at htp
  unfold runDaysStored
  by_cases hrdt : (runDaysVar ad now).truthy = true
  · rw [if_pos hrdt]
    rw [if_pos hrdt] at htp
    cases hrd : runDaysVar ad now <;> rw [hrd] at htp <;>
      simp [pyGtInt] at htp <;> simp [valueAsInt, htp]
  · rw [if_neg hrdt]
    rw [if_neg hrdt] at htp
    simp only [Except.ok.injEq] at htp
    subst htp
    simp [valueAsInt]

/-- Witness for C6 at a concrete record with `_run_days = 45`. -/
theorem claim_top_performer_equiv_witness :
    (valueAsInt (adOf (_normalize_ad [("_run_days", .vint 45)] "b" "c" nowW)).run_days).map
        (fun n => decide (30 < n))
      = some (adOf (_normalize_ad [("_run_days", .vint 45)] "b" "c" nowW)).is_top_performer :=
  claim_top_performer_equiv [("_run_days", .vint 45)] "b" "c" nowW
    (adOf (_normalize_ad [("_run_days", .vint 45)] "b" "c" nowW)) rfl

/-! ## C8: activity inference -/

/-- C8: with no `ad_delivery_stop_time` and no `_is_active` override the
stored `is_active` is `True`; with the override present, `is_active` is
the override value regardless of the stop timestamp. -/
theorem claim_activity_inference :
    (∀ (ad : RawAd) (bk comp : String) (now : NaiveDT) (c : CanonicalAd),
      List.lookup "_is_active" ad = none →
      List.lookup "ad_delivery_stop_time" ad = none →
      _normalize_ad ad bk comp now = .ok c →
      c.is_active = .vbool true) ∧
    (∀ (ad : RawAd) (bk comp : String) (now : NaiveDT) (c : CanonicalAd) (v : Value),
      List.lookup "_is_active" ad = some v →
      _normalize_ad ad bk comp now = .ok c →
      c.is_active = v) := by
  constructor
  · intro ad bk comp now c h1 h2 h
    obtain ⟨b, t, d, tp, hb, ht, hd, htp, hc⟩ := normalize_ok_elim h
    subst hc
    simp [okRecord, isActiveVal, rawGetD, rawGet, stopTimeOf, parse_dt,
      Value.truthy, h1, h2]
  · intro ad bk comp now c v h1 h
    obtain ⟨b, t, d, tp, hb, ht, hd, htp, hc⟩ := normalize_ok_elim h
    subst hc
    simp [okRecord, isActiveVal, rawGetD, h1]

/-- Witness for C8: a record with neither field gives `is_active = True`. -/
theorem claim_activity_inference_witness :
    (adOf (_normalize_ad [("id", .vstr "a2")] "b" "c" nowW)).is_active = .vbool true :=
  claim_activity_inference.1 [("id", .vstr "a2")] "b" "c" nowW
    (adOf (_normalize_ad [("id", .vstr "a2")] "b" "c" nowW)) rfl rfl rfl

/-! ## C10: implicit start-time fallback to the creation time -/

/-- Counterexample to C10 as stated: a raw record with no
`ad_delivery_start_time`, a parseable `ad_creation_time` and
`_run_days = 50` stores `run_days = 50` verbatim (the line-110
override), not a value computed from the creation time (which would be
502 days at the witness clock) — so "computes run_days from that
creation time" fails without an override-free hypothesis. -/
theorem claim_start_time_fallback_cex :
    List.lookup "ad_delivery_start_time"
        [("ad_creation_time", .vstr "2024-01-15T10:00:00Z"), ("_run_days", Value.vint 50)] = none ∧
    parse_dt (rawGet [("ad_creation_time", .vstr "2024-01-15T10:00:00Z"), ("_run_days", Value.vint 50)]
        "ad_creation_time") = some ⟨2024, 1, 15, 10, 0, 0⟩ ∧
    _normalize_ad [("ad_creation_time", .vstr "2024-01-15T10:00:00Z"), ("_run_days", Value.vint 50)]
        "b" "c" nowW
      = .ok (adOf (_normalize_ad [("ad_creation_time", .vstr "2024-01-15T10:00:00Z"), ("_run_days", Value.vint 50)] "b" "c" nowW)) ∧
    (adOf (_normalize_ad [("ad_creation_time", .vstr "2024-01-15T10:00:00Z"), ("_run_days", Value.vint 50)] "b" "c" nowW)).run_days
      = .vint 50 ∧
    (adOf (_normalize_ad [("ad_creation_time", .vstr "2024-01-15T10:00:00Z"), ("_run_days", Value.vint 50)] "b" "c" nowW)).run_days
      ≠ .vint (deltaDays
          (((adOf (_normalize_ad [("ad_creation_time", .vstr "2024-01-15T10:00:00Z"), ("_run_days", Value.vint 50)] "b" "c" nowW)).ad_delivery_stop_time).getD nowW)
          ⟨2024, 1, 15, 10, 0, 0⟩) := by
  decide

/-- C10 as amended: with no `ad_delivery_start_time` key but a parseable
`ad_creation_time`, the canonical delivery start is the parsed creation
time (never null); and when the record additionally carries no
`_run_days` override, `run_days` is derived from that creation time
against (stop or now).  A `_run_days` value on the record takes
precedence over the derivation. -/
theorem claim_start_time_fallback :
    ∀ (ad : RawAd) (bk comp : String) (now : NaiveDT) (c : CanonicalAd) (t : NaiveDT),
    List.lookup "ad_delivery_start_time" ad = none →
    parse_dt (rawGet ad "ad_creation_time") = some t →
    _normalize_ad ad bk comp now = .ok c →
    c.ad_delivery_start_time = some t ∧
    (rawGet ad "_run_days" = .vnone →
      c.run_days = .vint (deltaDays (c.ad_delivery_stop_time.getD now) t)) := by
  intro ad bk comp now c t h1 h2 h
  obtain ⟨b, tt, d, tp, hb, ht, hd, htp, hc⟩ := normalize_ok_elim h
  subst hc
  have hstart : startTimeOf ad = some t := by
    simp [startTimeOf, pyOr, rawGet, rawGetD, h1, Value.truthy] at h2 ⊢
    exact h2
  constructor
  · simp [okRecord, hstart]
  · intro hrd
    simp only [okRecord]
    unfold runDaysStored
    have hvar : runDaysVar ad now = .vint (deltaDays ((stopTimeOf ad).getD now) t) := by
      unfold runDaysVar
      rw [hrd, hstart]
    rw [hvar]
    rcases eq_or_ne (deltaDays ((stopTimeOf ad).getD now) t) 0 with hz | hz <;>
      simp [Value.truthy, hz]

/-- Witness for C10: creation time present, start time absent. -/
theorem claim_start_time_fallback_witness :
    (adOf (_normalize_ad [("ad_creation_time", .vstr "2024-01-15T10:00:00Z")] "b" "c" nowW)).ad_delivery_start_time
      = some ⟨2024, 1, 15, 10, 0, 0⟩ :=
  (claim_start_time_fallback [("ad_creation_time", .vstr "2024-01-15T10:00:00Z")] "b" "c" nowW
    (adOf (_normalize_ad [("ad_creation_time", .vstr "2024-01-15T10:00:00Z")] "b" "c" nowW))
    ⟨2024, 1, 15, 10, 0, 0⟩ rfl (by decide) rfl).1

/-! ## C4: run_days derivation (corrected: the `_run_days` override wins) -/

/-- Counterexample to C4 as stated: a raw record carrying
`_run_days = 5` and no delivery-start timestamp normalizes to a stored
`run_days` of `5`, not the `0` the claim requires for a missing start. -/
theorem claim_run_days_derivation_cex :
    _normalize_ad [("_run_days", .vint 5)] "b" "c" nowW
        = .ok (adOf (_normalize_ad [("_run_days", .vint 5)] "b" "c" nowW)) ∧
    (adOf (_normalize_ad [("_run_days", .vint 5)] "b" "c" nowW)).ad_delivery_start_time = none ∧
    (adOf (_normalize_ad [("_run_days", .vint 5)] "b" "c" nowW)).run_days = .vint 5 ∧
    (adOf (_normalize_ad [("_run_days", .vint 5)] "b" "c" nowW)).run_days ≠ .vint 0 := by
  decide

/-- C4 as amended: when the raw record carries no `_run_days` override,
the stored `run_days` is the whole days between the delivery start and
(stop or now), and `0` when the start is missing. -/
theorem claim_run_days_derivation_amended :
    ∀ (ad : RawAd) (bk comp : String) (now : NaiveDT) (c : CanonicalAd),
    rawGet ad "_run_days" = .vnone →
    _normalize_ad ad bk comp now = .ok c →
    c.run_days = (match c.ad_delivery_start_time with
      | some st => Value.vint (deltaDays (c.ad_delivery_stop_time.getD now) st)
      | none => Value.vint 0) := by
  intro ad bk comp now c hrd h
  obtain ⟨b, t, d, tp, hb, ht, hd, htp, hc⟩ := normalize_ok_elim h
  subst hc
  simp only [okRecord]
  unfold runDaysStored
  cases hstart : startTimeOf ad
  case none =>
    have hvar : runDaysVar ad now = .vnone := by
      unfold runDaysVar
      rw [hrd, hstart]
    rw [hvar]
    simp [Value.truthy]
  case some st =>
    have hvar : runDaysVar ad now = .vint (deltaDays ((stopTimeOf ad).getD now) st) := by
      unfold runDaysVar
      rw [hrd, hstart]
    rw [hvar]
    rcases eq_or_ne (deltaDays ((stopTimeOf ad).getD now) st) 0 with hz | hz <;>
      simp [Value.truthy, hz]

/-- Witness for amended C4: no override, start present, stop absent. -/
theorem claim_run_days_derivation_amended_witness :
    (adOf (_normalize_ad [("ad_delivery_start_time", .vstr "2024-01-15T10:00:00Z")] "b" "c" nowW)).run_days
      = (match (adOf (_normalize_ad [("ad_delivery_start_time", .vstr "2024-01-15T10:00:00Z")] "b" "c" nowW)).ad_delivery_start_time with
        | some st => Value.vint (deltaDays ((adOf (_normalize_ad [("ad_delivery_start_time", .vstr "2024-01-15T10:00:00Z")] "b" "c" nowW)).ad_delivery_stop_time.getD nowW) st)
        | none => Value.vint 0) :=
  claim_run_days_derivation_amended [("ad_delivery_start_time", .vstr "2024-01-15T10:00:00Z")] "b" "c" nowW
    (adOf (_normalize_ad [("ad_delivery_start_time", .vstr "2024-01-15T10:00:00Z")] "b" "c" nowW)) rfl rfl

/-! ## C2: normalizer totality (corrected: two raise points exist) -/

/-- Values of the three creative fields the `[0] if ... else ""`
reduction cannot raise on: any list, any string, or anything falsy. -/
def creativeOk : Value → Bool
  | .vlist _ => true
  | .vstr _ => true
  | v => !v.truthy

/-- Values of `_run_days` the `run_days > 30` comparison cannot raise
on: ints, bools, or anything falsy. -/
def runDaysOk : Value → Bool
  | .vint _ => true
  | .vbool _ => true
  | v => !v.truthy

theorem firstOrEmpty_creative_ok (v : Value) (hv : creativeOk v = true) :
    ∃ b, firstOrEmpty (pyOr v (.vlist [])) = .ok b := by
  cases v with
  | vlist xs =>
    cases xs with
    | nil => exact ⟨.vstr "", rfl⟩
    | cons x xs => exact ⟨x, rfl⟩
  | vstr s =>
    by_cases hs : s = ""
    · subst hs
      exact ⟨.vstr "", rfl⟩
    · cases hd : s.data with
      | nil =>
        exact absurd (by cases s; simp_all) hs
      | cons c cs =>
        refine ⟨.vstr (String.mk [c]), ?_⟩
        simp [pyOr, Value.truthy, hs, firstOrEmpty, index0, hd]
  | vnone => exact ⟨.vstr "", rfl⟩
  | vbool b =>
    have hb : b = false := by simpa [creativeOk, Value.truthy] using hv
    subst hb
    exact ⟨.vstr "", rfl⟩
  | vint n =>
    have hn : n = 0 := by simpa [creativeOk, Value.truthy] using hv
    subst hn
    exact ⟨.vstr "", rfl⟩
  | vdict xs =>
    have hx : xs.isEmpty = true := by simpa [creativeOk, Value.truthy] using hv
    cases xs with
    | nil => exact ⟨.vstr "", rfl⟩
    | cons p ps => simp [List.isEmpty] at hx

theorem isTopExpr_ok (ad : RawAd) (now : NaiveDT)
    (hrd : runDaysOk (rawGet ad "_run_days") = true) :
    ∃ tp, isTopExpr ad now = .ok tp := by
  unfold isTopExpr runDaysVar
  cases hg : rawGet ad "_run_days" with
  | vnone =>
    cases hst : startTimeOf ad with
    | none => exact ⟨false, rfl⟩
    | some st =>
      by_cases hz : (Value.vint (deltaDays ((stopTimeOf ad).getD now) st)).truthy = true
      · exact ⟨_, by rw [if_pos hz]; rfl⟩
      · exact ⟨false, by rw [if_neg hz]⟩
  | vint n =>
    by_cases hz : (Value.vint n).truthy = true
    · exact ⟨_, by rw [if_pos hz]; rfl⟩
    · exact ⟨false, by rw [if_neg hz]⟩
  | vbool b =>
    cases b with
    | false => exact ⟨false, rfl⟩
    | true => exact ⟨_, rfl⟩
  | vstr s =>
    rw [hg] at hrd
    have : (Value.vstr s).truthy = false := by
      simpa [runDaysOk] using hrd
    exact ⟨false, by rw [if_neg (by simp [this])]⟩
  | vlist xs =>
    rw [hg] at hrd
    have : (Value.vlist xs).truthy = false := by
      simpa [runDaysOk] using hrd
    exact ⟨false, by rw [if_neg (by simp [this])]⟩
  | vdict xs =>
    rw [hg] at hrd
    have : (Value.vdict xs).truthy = false := by
      simpa [runDaysOk] using hrd
    exact ⟨false, by rw [if_neg (by simp [this])]⟩

/-- Counterexample to C2 as stated: a record whose
`ad_creative_bodies` is the (truthy, unsubscriptable) integer `5` makes
`bodies[0]` raise a `TypeError` that `_normalize_ad` does not catch. -/
theorem claim_normalizer_totality_cex :
    _normalize_ad [("ad_creative_bodies", .vint 5)] "b" "c" nowW = .error "TypeError" := by
  decide

/-- C2 as amended: `_normalize_ad` returns a canonical record without
raising for every input mapping whose three creative-list fields are
lists, strings or falsy and whose `_run_days` is an int, bool or falsy;
in particular malformed timestamp or range values resolve to
null/defaults (`parse_dt`/`parse_spend` are total).  The only raise
points are the creative `[0]` indexings and the `run_days > 30`
comparison. -/
theorem claim_normalizer_totality_amended :
    ∀ (ad : RawAd) (bk comp : String) (now : NaiveDT),
    creativeOk (rawGet ad "ad_creative_bodies") = true →
    creativeOk (rawGet ad "ad_creative_link_titles") = true →
    creativeOk (rawGet ad "ad_creative_link_descriptions") = true →
    runDaysOk (rawGet ad "_run_days") = true →
    (_normalize_ad ad bk comp now).isOk = true := by
  intro ad bk comp now h1 h2 h3 h4
  obtain ⟨b, hb⟩ := firstOrEmpty_creative_ok _ h1
  obtain ⟨t, ht⟩ := firstOrEmpty_creative_ok _ h2
  obtain ⟨d, hd⟩ := firstOrEmpty_creative_ok _ h3
  obtain ⟨tp, htp⟩ := isTopExpr_ok ad now h4
  unfold _normalize_ad creativeVal
  rw [hb, ht, hd, htp]
  rfl

/-- Witness for amended C2: malformed spend, impressions and timestamp
values still normalize successfully. -/
theorem claim_normalizer_totality_amended_witness :
    (_normalize_ad [("spend", .vstr "bad"),
        ("ad_delivery_start_time", .vstr "nonsense"),
        ("impressions", .vdict [("lower_bound", .vstr "x"), ("upper_bound", .vint 2)])]
      "b" "c" nowW).isOk = true :=
  claim_normalizer_totality_amended [("spend", .vstr "bad"),
    ("ad_delivery_start_time", .vstr "nonsense"),
    ("impressions", .vdict [("lower_bound", .vstr "x"), ("upper_bound", .vint 2)])]
    "b" "c" nowW rfl rfl rfl rfl

/-! ## C1: normalize + upsert twice is insert-or-replace, not append -/

theorem normalize_ok_id {ad : RawAd} {bk comp : String} {now : NaiveDT}
    {c : CanonicalAd} {v : Value}
    (hid : List.lookup "id" ad = some v)
    (h : _normalize_ad ad bk comp now = .ok c) : c.id = v := by
  obtain ⟨b, t, d, tp, hb, ht, hd, htp, hc⟩ := normalize_ok_elim h
  subst hc
  simp [okRecord, rawGetD, hid]

theorem upsert_filter_self :
    ∀ (db : Store) (c : CanonicalAd),
    (db.filter (idMatches c.id)).length ≤ 1 →
    (upsert_ad db c).filter (idMatches c.id) = [c] := by
  intro db c
  induction db with
  | nil =>
    intro _
    simp [upsert_ad, idMatches]
  | cons r rest ih =>
    intro h
    unfold upsert_ad
    by_cases hr : (r.id == c.id) = true
    · rw [if_pos hr]
      have hr' : idMatches c.id r = true := hr
      rw [List.filter_cons_of_pos hr'] at h
      have h0 : List.filter (idMatches c.id) rest = [] := by
        refine List.length_eq_zero.mp ?_
        simp only [List.length_cons] at h
        omega
      rw [List.filter_cons_of_pos (by simp [idMatches]), h0]
    · rw [if_neg hr]
      have hr' : idMatches c.id r = false := by
        simpa [idMatches] using hr
      rw [List.filter_cons_of_neg (by simp [hr'])] at h
      rw [List.filter_cons_of_neg (by simp [hr'])]
      exact ih h

/-- C1: normalizing a raw record that carries an `id` and upserting the
result twice (at any two observation times) into a store holding at
most one row for that `id` leaves exactly one stored row for the `id`,
equal to the second normalization's output. -/
theorem claim_upsert_idempotent :
    ∀ (ad : RawAd) (v : Value) (bk comp : String) (t1 t2 : NaiveDT)
      (c1 c2 : CanonicalAd) (db : Store),
    List.lookup "id" ad = some v →
    _normalize_ad ad bk comp t1 = .ok c1 →
    _normalize_ad ad bk comp t2 = .ok c2 →
    (db.filter (idMatches v)).length ≤ 1 →
    (upsert_ad (upsert_ad db c1) c2).filter (idMatches v) = [c2] := by
  intro ad v bk comp t1 t2 c1 c2 db hid hn1 hn2 hlen
  have h1 : c1.id = v := normalize_ok_id hid hn1
  have h2 : c2.id = v := normalize_ok_id hid hn2
  have hfirst : (upsert_ad db c1).filter (idMatches c1.id) = [c1] := by
    apply upsert_filter_self
    rw [h1]
    exact hlen
  have hsecond : ((upsert_ad db c1).filter (idMatches c2.id)).length ≤ 1 := by
    rw [h2, ← h1, hfirst]
    simp
  have := upsert_filter_self (upsert_ad db c1) c2 hsecond
  rw [h2] at this
  exact this

/-- Witness for C1: a concrete record with `id = "a1"` upserted twice
into the empty store. -/
theorem claim_upsert_idempotent_witness :
    (upsert_ad (upsert_ad [] (adOf (_normalize_ad [("id", .vstr "a1")] "b" "c" nowW)))
        (adOf (_normalize_ad [("id", .vstr "a1")] "b" "c" nowW))).filter
        (idMatches (.vstr "a1"))
      = [adOf (_normalize_ad [("id", .vstr "a1")] "b" "c" nowW)] :=
  claim_upsert_idempotent [("id", .vstr "a1")] (.vstr "a1") "b" "c" nowW nowW
    (adOf (_normalize_ad [("id", .vstr "a1")] "b" "c" nowW))
    (adOf (_normalize_ad [("id", .vstr "a1")] "b" "c" nowW)) []
    rfl rfl rfl (by decide)

/-! ## C3: persistence error isolation (corrected: only the seeding
path isolates per record; the no-credential fetch path does not) -/

/-- A sample generator producing two records for any competitor. -/
def cexGen : String → String → Nat → List RawAd :=
  fun _ _ _ => [[("id", .vstr "r1")], [("id", .vstr "r2")]]

/-- A persistence operation that raises on the record with id `"r1"`
and succeeds on everything else. -/
def cexUpsert : Store → CanonicalAd → Except String Store :=
  fun db c => if c.id == .vstr "r1" then .error "constraint violation" else .ok (upsert_ad db c)

/-- One brand with one competitor. -/
def cexBrands : List (String × List Comp) := [("b", [⟨"c", "c"⟩])]

/-- Counterexample to C3 as stated: in the no-credential path of
`fetch_ads` there is no `try`/`except` around the upsert, so a
persistence failure on the first record aborts the whole batch — the
second record (whose upsert would succeed) is never processed and no
count is returned. -/
theorem claim_error_isolation_cex :
    fetchAdsNoToken cexUpsert cexGen cexBrands nowW [] = .error "constraint violation" := by
  decide

theorem seedStep_caught {upsertF : Store → CanonicalAd → Except String Store}
    {y : RawAd} {bk comp : String} {now : NaiveDT} {db : Store}
    {c : CanonicalAd} {e : String}
    (hm : metaOf y = .ok (bk, comp))
    (hn : _normalize_ad y bk comp now = .ok c)
    (hu : upsertF db c = .error e) :
    seedStep upsertF now db y = .ok db := by
  unfold seedStep
  rw [hm]
  simp only [Bind.bind, Except.bind]
  rw [hn]
  simp only [hu]
  rfl

theorem seedSampleData_append (upsertF : Store → CanonicalAd → Except String Store)
    (xs ys : List RawAd) (now : NaiveDT) (s s1 : Store)
    (h : seedSampleData upsertF xs now s = .ok s1) :
    seedSampleData upsertF (xs ++ ys) now s = seedSampleData upsertF ys now s1 := by
  unfold seedSampleData at *
  induction xs generalizing s with
  | nil =>
    simp only [List.foldlM_nil] at h
    cases h
    simp
  | cons x xs ih =>
    rw [List.cons_append, List.foldlM_cons] at *
    cases hstep : seedStep upsertF now s x with
    | error e =>
      rw [hstep] at h
      exact Except.noConfusion h
    | ok s2 =>
      rw [hstep] at h
      exact ih s2 h

/-- C3 as amended: in the sample-seeding path, a persistence failure on
one record is caught (and logged), leaves the store unchanged for that
record, and does not abort the remaining records of the batch; in the
live-fetch path failures are caught per competitor, while in the
no-credential path of `fetch_ads` an upsert failure propagates and
aborts the batch. -/
theorem claim_error_isolation_amended :
    ∀ (upsertF : Store → CanonicalAd → Except String Store)
      (xs : List RawAd) (y : RawAd) (zs : List RawAd) (now : NaiveDT)
      (s s1 : Store) (bk comp : String) (c : CanonicalAd) (e : String),
    seedSampleData upsertF xs now s = .ok s1 →
    metaOf y = .ok (bk, comp) →
    _normalize_ad y bk comp now = .ok c →
    upsertF s1 c = .error e →
    seedSampleData upsertF (xs ++ y :: zs) now s = seedSampleData upsertF zs now s1 := by
  intro upsertF xs y zs now s s1 bk comp c e hxs hm hn hu
  rw [seedSampleData_append upsertF xs (y :: zs) now s s1 hxs]
  unfold seedSampleData
  rw [List.foldlM_cons, seedStep_caught hm hn hu]
  simp [Bind.bind, Except.bind]

/-- Witness for amended C3: a seed batch whose first record's upsert
raises still processes the rest (here: from the empty prefix and store,
with one failing record followed by the remaining batch). -/
theorem claim_error_isolation_amended_witness :
    seedSampleData cexUpsert
        ([] ++ [("_brand_key", .vstr "b"), ("_competitor", .vstr "c"), ("id", .vstr "r1")]
          :: [[("_brand_key", .vstr "b"), ("_competitor", .vstr "c"), ("id", .vstr "r2")]])
        nowW []
      = seedSampleData cexUpsert
          [[("_brand_key", .vstr "b"), ("_competitor", .vstr "c"), ("id", .vstr "r2")]] nowW [] :=
  claim_error_isolation_amended cexUpsert []
    [("_brand_key", .vstr "b"), ("_competitor", .vstr "c"), ("id", .vstr "r1")]
    [[("_brand_key", .vstr "b"), ("_competitor", .vstr "c"), ("id", .vstr "r2")]]
    nowW [] [] "b" "c"
    (adOf (_normalize_ad [("_brand_key", .vstr "b"), ("_competitor", .vstr "c"), ("id", .vstr "r1")] "b" "c" nowW))
    "constraint violation" rfl rfl rfl rfl

/-! ## C9: empty-live-fetch fallback flagging -/

theorem normalize_ok_is_sample {ad : RawAd} {bk comp : String} {now : NaiveDT}
    {c : CanonicalAd} (h : _normalize_ad ad bk comp now = .ok c) :
    c.is_sample = rawGetD ad "_is_sample" (.vbool false) := by
  obtain ⟨b, t, d, tp, hb, ht, hd, htp, hc⟩ := normalize_ok_elim h
  subst hc
  simp [okRecord]

theorem lookup_setKey (ad : RawAd) (k : String) (v : Value) :
    List.lookup k (setKey ad k v) = some v := by
  unfold setKey
  by_cases h : (List.lookup k ad).isSome = true
  · rw [if_pos h]
    induction ad with
    | nil => simp at h
    | cons p rest ih =>
      by_cases hk : (p.1 == k) = true
      · simp only [List.map_cons, if_pos hk]
        simp [List.lookup]
      · simp only [List.map_cons, if_neg hk]
        have hne : ¬(p.1 = k) := by simpa using hk
        have hk' : (k == p.1) = false := by
          simp only [beq_eq_false_iff_ne, ne_eq]
          intro hkk
          exact hne hkk.symm
        simp only [List.lookup, hk']
        apply ih
        simp only [List.lookup, hk'] at h
        exact h
  · rw [if_neg h]
    induction ad with
    | nil => simp [List.lookup]
    | cons p rest ih =>
      by_cases hk : (k == p.1) = true
      · exfalso
        apply h
        simp [List.lookup, hk]
      · simp only [List.cons_append, List.lookup, hk]
        apply ih
        intro hrest
        apply h
        simp [List.lookup, hk, hrest]

/-- C9: in a live-fetch batch, a competitor whose fetch returned zero
records has every record it persists flagged `is_sample = True` (they
are the synthetic samples), while a competitor whose fetch returned
data (records without the internal `_is_sample` key) persists records
flagged `is_sample = False`. -/
theorem claim_sample_flag_fallback :
    ∀ (gen : String → String → Nat → List RawAd) (bk : String) (comp : Comp)
      (now : NaiveDT) (fetched : List RawAd),
    (fetched = [] →
      ∀ raw ∈ compRawAds gen bk comp fetched, ∀ c : CanonicalAd,
        _normalize_ad raw bk comp.name now = .ok c → c.is_sample = .vbool true) ∧
    (fetched ≠ [] →
      (∀ raw ∈ fetched, List.lookup "_is_sample" raw = none) →
      ∀ raw ∈ compRawAds gen bk comp fetched, ∀ c : CanonicalAd,
        _normalize_ad raw bk comp.name now = .ok c → c.is_sample = .vbool false) := by
  intro gen bk comp now fetched
  constructor
  · intro hf raw hmem c hnorm
    subst hf
    simp only [compRawAds, List.isEmpty_nil, if_pos] at hmem
    simp only [List.mem_map] at hmem
    obtain ⟨g, hg, hraw⟩ := hmem
    subst hraw
    rw [normalize_ok_is_sample hnorm]
    simp [rawGetD, lookup_setKey]
  · intro hne hkeys raw hmem c hnorm
    unfold compRawAds at hmem
    rw [if_neg (by simpa [List.isEmpty_iff] using hne)] at hmem
    rw [normalize_ok_is_sample hnorm]
    simp [rawGetD, hkeys raw hmem]

/-- A sample generator producing one record, used by the C9 witness. -/
def genW : String → String → Nat → List RawAd :=
  fun _ _ _ => [[("id", .vstr "g1")]]

/-- The C9 witness's competitor. -/
def compW : Comp := ⟨"c", "c"⟩

/-- Witness for C9: the synthetic substitute of a competitor whose
fetch came back empty normalizes with `is_sample = True`. -/
theorem claim_sample_flag_fallback_witness :
    (adOf (_normalize_ad (setKey [("id", .vstr "g1")] "_is_sample" (.vbool true)) "b" "c" nowW)).is_sample
      = .vbool true :=
  (claim_sample_flag_fallback genW "b" compW nowW []).1 rfl
    (setKey [("id", .vstr "g1")] "_is_sample" (.vbool true))
    (by decide)
    (adOf (_normalize_ad (setKey [("id", .vstr "g1")] "_is_sample" (.vbool true)) "b" "c" nowW))
    rfl
